import Mathlib

/-!
Verification of the pipeline orchestration core of this repository:
the Schedule/Run/BlockRun state machine (`mage_ai/orchestration/db/models.py`),
block execution and output retrieval (`mage_ai/data_preparation/models/block.py`),
and the variable store (`mage_ai/data_preparation/variable_manager.py`).

Python `datetime` values are modelled as records of Nat fields over the
proleptic Gregorian calendar, matching `datetime.datetime`'s semantics for
`replace`, `weekday` (Monday = 0) and `timedelta(days=k)` subtraction.
-/

namespace Mage

/-- Model of Python `datetime.datetime`: calendar fields, proleptic Gregorian. -/
structure Datetime where
  year : Nat
  month : Nat
  day : Nat
  hour : Nat
  minute : Nat
  second : Nat
  microsecond : Nat
deriving DecidableEq

/-- Gregorian leap-year rule, as in Python's `calendar.isleap`. -/
def isLeapYear (y : Nat) : Bool :=
  (y % 4 == 0 && y % 100 != 0) || y % 400 == 0

/-- Length of month `m` in year `y` (months are 1-based). -/
def daysInMonth (y m : Nat) : Nat :=
  if m = 2 then (if isLeapYear y then 29 else 28)
  else if m = 4 ∨ m = 6 ∨ m = 9 ∨ m = 11 then 30
  else 31

/-- Days in year `y` strictly before month `m` (m = 1 gives 0). -/
def daysBeforeMonth (y : Nat) : Nat → Nat
  | 0 => 0
  | 1 => 0
  | m + 2 => daysBeforeMonth y (m + 1) + daysInMonth y (m + 1)

/-- Leap days contributed by the first `k` years of the proleptic calendar. -/
def leapDays (k : Nat) : Nat := k / 4 - k / 100 + k / 400

/-- Rata-die day number of a datetime's date: `rataDie ⟨1,1,1,..⟩ = 1`.
This is Python's `date.toordinal()`. -/
def rataDie (t : Datetime) : Nat :=
  365 * (t.year - 1) + leapDays (t.year - 1) + daysBeforeMonth t.year t.month + t.day

/-- Python's `datetime.weekday()`: Monday = 0, ..., Sunday = 6.
0001-01-01 (ordinal 1) is a Monday. -/
def pyWeekday (t : Datetime) : Nat := (rataDie t + 6) % 7

/-- The date fields denote an actual calendar date. -/
def ValidDate (t : Datetime) : Prop :=
  1 ≤ t.year ∧ 1 ≤ t.month ∧ t.month ≤ 12 ∧ 1 ≤ t.day ∧ t.day ≤ daysInMonth t.year t.month

instance (t : Datetime) : Decidable (ValidDate t) := by
  unfold ValidDate; infer_instance

/-- Python `datetime <` comparison: lexicographic on the fields. -/
def dtLt (a b : Datetime) : Bool :=
  decide (a.year < b.year) || (a.year == b.year &&
    (decide (a.month < b.month) || (a.month == b.month &&
      (decide (a.day < b.day) || (a.day == b.day &&
        (decide (a.hour < b.hour) || (a.hour == b.hour &&
          (decide (a.minute < b.minute) || (a.minute == b.minute &&
            (decide (a.second < b.second) || (a.second == b.second &&
              decide (a.microsecond < b.microsecond))))))))))))

/-- Python `now.replace(second=0, microsecond=0, minute=0, hour=0)`. -/
def truncDay (t : Datetime) : Datetime :=
  { t with hour := 0, minute := 0, second := 0, microsecond := 0 }

/-- Python `now.replace(second=0, microsecond=0, minute=0)`. -/
def truncHour (t : Datetime) : Datetime :=
  { t with minute := 0, second := 0, microsecond := 0 }

/-- The calendar date one day earlier (time fields untouched) —
one step of Python's `datetime - timedelta(days=1)`. -/
def predDate (t : Datetime) : Datetime :=
  if 1 < t.day then { t with day := t.day - 1 }
  else if 1 < t.month then
    { t with month := t.month - 1, day := daysInMonth t.year (t.month - 1) }
  else { t with year := t.year - 1, month := 12, day := 31 }

/-- Python's `t - timedelta(days=k)`. -/
def subDays : Nat → Datetime → Datetime
  | 0, t => t
  | n + 1, t => subDays n (predDate t)

/- ------------------------------------------------------------------ -/
/- Schedule / Run / BlockRun data model from mage_ai/orchestration/db/models.py -/
/- ------------------------------------------------------------------ -/

/-- Enum `PipelineSchedule.ScheduleStatus`. -/
inductive ScheduleStatus
  | active
  | inactive
deriving DecidableEq

/-- Enum `PipelineRun.PipelineRunStatus`. -/
inductive PipelineRunStatus
  | initial
  | running
  | completed
  | failed
  | cancelled
deriving DecidableEq

/-- Enum `BlockRun.BlockRunStatus`. -/
inductive BlockRunStatus
  | initial
  | queued
  | running
  | completed
  | failed
  | cancelled
deriving DecidableEq

/-- Row of table `block_run`. -/
structure BlockRun where
  pipeline_run_id : Nat
  block_uuid : String
  status : BlockRunStatus
deriving DecidableEq

/-- Row of table `pipeline_run`, with its owned `block_runs` relationship. -/
structure PipelineRun where
  id : Nat
  pipeline_schedule_id : Nat
  pipeline_uuid : Option String
  execution_date : Option Datetime
  status : PipelineRunStatus
  block_runs : List BlockRun
deriving DecidableEq

/-- Row of table `pipeline_schedule`, with its owned `pipeline_runs` relationship. -/
structure PipelineSchedule where
  name : String
  pipeline_uuid : String
  start_time : Option Datetime
  schedule_interval : String
  status : ScheduleStatus
  pipeline_runs : List PipelineRun
deriving DecidableEq

/-- Source `PipelineSchedule.current_execution_date` (models.py lines 93-105), with the
implicit `datetime.now()` passed explicitly.  Intervals other than the four
recurring ones (the cron TODO) give `None`. -/
def current_execution_date (interval : String) (now : Datetime) : Option Datetime :=
  if interval = "@daily" then some (truncDay now)
  else if interval = "@hourly" then some (truncHour now)
  else if interval = "@weekly" then some (subDays (pyWeekday now) (truncDay now))
  else if interval = "@monthly" then some { truncDay now with day := 1 }
  else none

/-- The code's `self.start_time is not None and datetime.now() < self.start_time`. -/
def start_in_future (s : PipelineSchedule) (now : Datetime) : Bool :=
  match s.start_time with
  | some t => dtLt now t
  | none => false

/-- Source `PipelineSchedule.should_schedule` (models.py lines 107-125), with
`datetime.now()` passed explicitly.  `find(pred, runs)` is truthy exactly when
some run satisfies the predicate, hence `List.any`. -/
def should_schedule (s : PipelineSchedule) (now : Datetime) : Bool :=
  if s.status ≠ ScheduleStatus.active then false
  else if start_in_future s now then false
  else if s.schedule_interval = "@once" then
    decide (s.pipeline_runs.length = 0)
  else
    match current_execution_date s.schedule_interval now with
    | none => false
    | some d => ! s.pipeline_runs.any (fun r => r.execution_date == some d)

/-- Source `PipelineRun.all_blocks_completed` (models.py lines 180-182). -/
def all_blocks_completed (r : PipelineRun) : Bool :=
  r.block_runs.all (fun b => b.status == BlockRunStatus.completed)

/-- Left-pad a number with zeros, for `strftime`-style fields. -/
def padNum (width v : Nat) : String :=
  let s := toString v
  String.mk (List.replicate (width - s.length) '0') ++ s

/-- Python `execution_date.strftime(format='%Y%m%dT%H%M%S')`. -/
def formatYmdThms (d : Datetime) : String :=
  padNum 4 d.year ++ padNum 2 d.month ++ padNum 2 d.day ++ "T" ++
    padNum 2 d.hour ++ padNum 2 d.minute ++ padNum 2 d.second

/-- Source `PipelineRun.execution_partition` (models.py lines 145-153). -/
def execution_partition (r : PipelineRun) : String :=
  match r.execution_date with
  | none => toString r.pipeline_schedule_id
  | some d => toString r.pipeline_schedule_id ++ "/" ++ formatYmdThms d

/- ------------------------------------------------------------------ -/
/- Blocks and the variable store                                      -/
/- (mage_ai/data_preparation/models/block.py, variable_manager.py)    -/
/- ------------------------------------------------------------------ -/

/-- Enum `BlockStatus` from block.py. -/
inductive BlockStatus
  | executed
  | not_executed
deriving DecidableEq

/-- Enum `BlockType` from block.py. -/
inductive BlockType
  | data_exporter
  | data_loader
  | scratchpad
  | transformer
deriving DecidableEq

/-- The data a block needs from its owning pipeline (`self.pipeline.uuid`,
`self.pipeline.repo_path`): an identifier-based back-reference, per spec §9,
avoiding the mutual ownership of the Python objects. -/
structure PipelineRef where
  uuid : String
  repo_path : String
deriving DecidableEq

/-- Source `Block` from block.py.  Upstream/downstream blocks are kept as uuid
back-references (spec §3: resolved through the owning Pipeline). -/
structure Block where
  name : String
  uuid : String
  type : BlockType
  status : BlockStatus
  pipeline : Option PipelineRef
  upstream_blocks : List String
  downstream_blocks : List String
deriving DecidableEq

/-- The `output_variables` property of each `BLOCK_TYPE_TO_CLASS` entry:
loaders and transformers declare `['df']`, exporters and scratchpads `[]`. -/
def output_variables (t : BlockType) : List String :=
  match t with
  | BlockType.data_loader => ["df"]
  | BlockType.transformer => ["df"]
  | BlockType.data_exporter => []
  | BlockType.scratchpad => []

/-- Enum `VariableType` from models/variable.py (file absent from src; the two
members referenced by src are DATAFRAME and DATAFRAME_ANALYSIS). -/
inductive VariableType
  | dataframe
  | dataframe_analysis
deriving DecidableEq

/-- A stored artifact value: tabular (pandas DataFrame) or a generic
JSON-serializable value. -/
inductive VarData
  | dataframe (columns : List String) (rows : List (List Int))
  | generic (text : String)
deriving DecidableEq

/-- Key of one variable on disk:
`<repo>/pipelines/<pipeline_uuid>/variables/<block_uuid>/<variable_uuid>[/<partition>]`
(spec §6).  `pipeline_path` is the `<repo>/pipelines/<pipeline_uuid>` prefix
that `VariableManager.__pipeline_path` computes.  The partition component is
optional in the spec's key layout; src's `VariableManager` never passes one,
so it is always `none` here. -/
structure VarKey where
  pipeline_path : String
  block_uuid : String
  variable_uuid : String
  partition : Option String
deriving DecidableEq

/-- The variable store contents, newest write first. -/
abbrev VarStore := List (VarKey × VarData)

/-- Modelled from the spec: `Variable.write_data` (models/variable.py is absent
from src).  Spec §4.3: idempotent, last-write-wins overwrite of the keyed
artifact. -/
def write_data (st : VarStore) (k : VarKey) (v : VarData) : VarStore :=
  (k, v) :: st

/-- A bounded deterministic downsample of tabular data (spec §4.3/§4.1:
fixed max row count, no replacement). -/
def sampleData : VarData → VarData
  | VarData.dataframe cols rows => VarData.dataframe cols (rows.take 1000)
  | v => v

/-- Modelled from the spec: `Variable.read_data` (models/variable.py is absent
from src).  Returns the most recently written value for the key, or `none`
(`NotFound`) when the key was never written; `sample = true` returns the
bounded deterministic sample. -/
def read_data (st : VarStore) (k : VarKey) (sample : Bool) : Option VarData :=
  match st.find? (fun e => e.1 == k) with
  | none => none
  | some e => some (if sample then sampleData e.2 else e.2)

/-- Source `VariableManager.__pipeline_path`. -/
def pipeline_path (repo_path pipeline_uuid : String) : String :=
  repo_path ++ "/pipelines/" ++ pipeline_uuid

/-- Source `VariableManager.add_variable` (variable_manager.py lines 12-28): builds the
key from (pipeline, block, variable) and writes the data.  The variable-type
tag (DATAFRAME when the value is a DataFrame) selects the physical
representation only; the stored value is `data` itself. -/
def add_variable (repo_path : String) (st : VarStore)
    (pipeline_uuid block_uuid variable_uuid : String) (data : VarData) : VarStore :=
  write_data st ⟨pipeline_path repo_path pipeline_uuid, block_uuid, variable_uuid, none⟩ data

/-- Source `VariableManager.get_variable` (variable_manager.py lines 30-44). -/
def get_variable (repo_path : String) (st : VarStore)
    (pipeline_uuid block_uuid variable_uuid : String) (sample : Bool) : Option VarData :=
  read_data st ⟨pipeline_path repo_path pipeline_uuid, block_uuid, variable_uuid, none⟩ sample

/-- Source `Block.__store_variables`: returns the store unchanged when the block has
no owning pipeline, else writes every (variable name, value) pair through
`VariableManager(pipeline.repo_path).add_variable(pipeline.uuid, block.uuid, ...)`.
Iterating the zipped pairs in order gives the same final store as the Python
`dict(zip(...))` (for duplicate names both keep the last value). -/
def store_variables (b : Block) (st : VarStore)
    (mapping : List (String × VarData)) : VarStore :=
  match b.pipeline with
  | none => st
  | some p =>
    mapping.foldl (fun acc q => add_variable p.repo_path acc p.uuid b.uuid q.1 q.2) st

/-- Outcome of `Block.execute`: the raised error (if any), the block state,
the variable store, and whether `pipeline.update_block` was invoked. -/
structure ExecuteResult where
  error : Option String
  block : Block
  store : VarStore
  notified : Bool
deriving DecidableEq

/-- Source `Block.execute` (block.py lines 98-108), with the value sequence returned
by the external execution capability (`execute_block`) passed explicitly.
On an arity mismatch the exception leaves block and store untouched; otherwise
the outputs are stored, the status becomes EXECUTED, and the owning pipeline
is notified via `__update_pipeline_block`. -/
def Block.execute (b : Block) (outputs : List VarData) (st : VarStore) : ExecuteResult :=
  if outputs.length ≠ (output_variables b.type).length then
    { error := some "The number of output variables does not match the block type",
      block := b, store := st, notified := false }
  else
    let mapping := (output_variables b.type).zip outputs
    { error := none,
      block := { b with status := BlockStatus.executed },
      store := store_variables b st mapping,
      notified := b.pipeline.isSome }

/-- Source `Block.get_outputs` (block.py lines 128-151).  src block.py declares it
without parameters, but its only src caller (`BlockRun.get_outputs`,
orchestration/db/models.py lines 218-224) invokes it with `execution_partition`
and `sample_count`, matching the spec signature `outputs(partition, sampleCount?)`;
the parameters are threaded here and, as in the src body, do not affect the
result.  Reads each declared output variable back with `sample=True`. -/
def Block.get_outputs (b : Block) (st : VarStore)
    (execution_partition : Option String) (sample_count : Option Nat) :
    List (Option VarData) :=
  if b.status = BlockStatus.not_executed then []
  else if output_variables b.type = [] then []
  else
    (output_variables b.type).map (fun v =>
      match b.pipeline with
      | none => none
      | some p => get_variable p.repo_path st p.uuid b.uuid v true)

/- ------------------------------------------------------------------ -/
/- Pipeline: block registry, executable blocks, DAG edge insertion    -/
/- (mage_ai/data_preparation/models/pipeline.py is absent from src)   -/
/- ------------------------------------------------------------------ -/

/-- Source `Pipeline`: registry of blocks keyed by uuid (spec §3). -/
structure Pipeline where
  uuid : String
  repo_path : String
  blocks : List Block
deriving DecidableEq

/-- One Kahn step per unit of fuel: emit the first not-yet-emitted block all
of whose upstream blocks were already emitted. -/
def topoAux (blocks : List Block) : Nat → List String → List Block
  | 0, _ => []
  | n + 1, done =>
    match blocks.find? (fun b =>
        ! done.contains b.uuid && b.upstream_blocks.all (fun u => done.contains u)) with
    | none => []
    | some b => b :: topoAux blocks n (done ++ [b.uuid])

/-- Modelled from the spec: `Pipeline.get_executable_blocks` (pipeline.py is
absent from src; only its caller `PipelineRun.create` is present).  Spec §4.2:
topological order of all currently non-disabled blocks, ties broken by
declaration order. -/
def get_executable_blocks (p : Pipeline) : List Block :=
  topoAux p.blocks p.blocks.length []

/-- Source `PipelineRun.create` (models.py lines 166-178): persists the run (default
status INITIAL), and when a `pipeline_uuid` was given, snapshots the
pipeline's executable blocks into one BlockRun each (default status INITIAL).
`Pipeline.get` on an unknown uuid raises, hence `none`. -/
def PipelineRun.create (id pipeline_schedule_id : Nat) (pipeline_uuid : Option String)
    (execution_date : Option Datetime) (registry : List Pipeline) : Option PipelineRun :=
  match pipeline_uuid with
  | none =>
    some ⟨id, pipeline_schedule_id, none, execution_date, PipelineRunStatus.initial, []⟩
  | some pu =>
    match registry.find? (fun p => p.uuid == pu) with
    | none => none
    | some p =>
      some ⟨id, pipeline_schedule_id, some pu, execution_date, PipelineRunStatus.initial,
        (get_executable_blocks p).map (fun b => ⟨id, b.uuid, BlockRunStatus.initial⟩)⟩

/-- Source `BlockRun.get_outputs` (models.py lines 218-224): resolve the pipeline and
block, then forward `execution_partition` and `sample_count` to the block's
`get_outputs`.  Unresolvable pipeline or block raises, hence `none`. -/
def BlockRun.get_outputs (br : BlockRun) (run : PipelineRun) (registry : List Pipeline)
    (st : VarStore) (sample_count : Option Nat) : Option (List (Option VarData)) :=
  match run.pipeline_uuid with
  | none => none
  | some pu =>
    match registry.find? (fun p => p.uuid == pu) with
    | none => none
    | some p =>
      match p.blocks.find? (fun b => b.uuid == br.block_uuid) with
      | none => none
      | some blk =>
        some (Block.get_outputs blk st (some (execution_partition run)) sample_count)

/-- The edge set induced by the blocks' upstream back-references:
`(u, b)` means `u` feeds `b`. -/
def edgesOf (blocks : List Block) : List (String × String) :=
  (blocks.map (fun b => b.upstream_blocks.map (fun u => (u, b.uuid)))).flatten

/-- Reachability: `reach edges n a b` holds when there is a directed path from `a` to `b` of length at
most `n` along `edges`. -/
def reach (edges : List (String × String)) : Nat → String → String → Bool
  | 0, a, b => a == b
  | n + 1, a, b => a == b || edges.any (fun e => e.1 == a && reach edges n e.2 b)

/-- A directed cycle exists: some edge `(u, w)` is closed by a path from `w`
back to `u` (of length at most the number of edges). -/
def hasCycle (edges : List (String × String)) : Bool :=
  edges.any (fun e => reach edges edges.length e.2 e.1)

/-- The edge mutation applied to both endpoints at once: `b` gains `a` as an
upstream back-reference and `a` gains `b` downstream. -/
def add_edge_updated (blocks : List Block) (a b : String) : List Block :=
  blocks.map (fun blk =>
    if blk.uuid == a then { blk with downstream_blocks := blk.downstream_blocks ++ [b] }
    else if blk.uuid == b then { blk with upstream_blocks := blk.upstream_blocks ++ [a] }
    else blk)

/-- Modelled from the spec: `addEdge(a, b)` (pipeline.py is absent from src).
Spec §4.2/§7: atomic on both endpoints, rejects any edge whose addition would
create a cycle with `CycleError` and no partial mutation. -/
def add_edge (blocks : List Block) (a b : String) : List Block × Option String :=
  let updated := add_edge_updated blocks a b
  if hasCycle (edgesOf updated) then (blocks, some "CycleError")
  else (updated, none)

/- ------------------------------------------------------------------ -/
/- Concrete instances used by the witness theorems                    -/
/- ------------------------------------------------------------------ -/

/-- A concrete current time: 2022-06-15 10:30:00 (a Wednesday). -/
def nowW : Datetime := ⟨2022, 6, 15, 10, 30, 0, 0⟩

/-- An active `@once` schedule with no runs yet. -/
def scheduleOnceEmpty : PipelineSchedule :=
  ⟨"sched", "pl", none, "@once", ScheduleStatus.active, []⟩

/-- The single run created from `scheduleOnceEmpty`. -/
def runOnce : PipelineRun := ⟨1, 1, some "pl", none, PipelineRunStatus.initial, []⟩

/-- The same `@once` schedule after its run was created. -/
def scheduleOnceDone : PipelineSchedule :=
  ⟨"sched", "pl", none, "@once", ScheduleStatus.active, [runOnce]⟩

/-- An active `@daily` schedule with no runs yet. -/
def scheduleDaily : PipelineSchedule :=
  ⟨"sched", "pl", none, "@daily", ScheduleStatus.active, []⟩

/-- A run whose two block runs are both completed. -/
def runAllDone : PipelineRun :=
  ⟨2, 1, some "pl", none, PipelineRunStatus.running,
    [⟨2, "a", BlockRunStatus.completed⟩, ⟨2, "b", BlockRunStatus.completed⟩]⟩

/-- Loader block `a` of the 3-block linear pipeline A→B→C. -/
def blockA : Block :=
  ⟨"a", "a", BlockType.data_loader, BlockStatus.not_executed, some ⟨"pl", "repo"⟩, [], ["b"]⟩

/-- Transformer block `b` of the 3-block linear pipeline A→B→C. -/
def blockB : Block :=
  ⟨"b", "b", BlockType.transformer, BlockStatus.not_executed, some ⟨"pl", "repo"⟩, ["a"], ["c"]⟩

/-- Exporter block `c` of the 3-block linear pipeline A→B→C. -/
def blockC : Block :=
  ⟨"c", "c", BlockType.data_exporter, BlockStatus.not_executed, some ⟨"pl", "repo"⟩, ["b"], []⟩

/-- The 3-block linear pipeline A→B→C. -/
def pipelineABC : Pipeline := ⟨"pl", "repo", [blockA, blockB, blockC]⟩

/-- Block `x` feeding `y`, for the cycle-rejection witness. -/
def blockX : Block :=
  ⟨"x", "x", BlockType.data_loader, BlockStatus.not_executed, none, [], ["y"]⟩

/-- Block `y` fed by `x`, for the cycle-rejection witness. -/
def blockY : Block :=
  ⟨"y", "y", BlockType.transformer, BlockStatus.not_executed, none, ["x"], []⟩

/-- The two-block pipeline x→y. -/
def twoBlocks : List Block := [blockX, blockY]

/- ------------------------------------------------------------------ -/
/- Calendar lemmas                                                    -/
/- ------------------------------------------------------------------ -/

theorem daysInMonth_pos (y m : Nat) : 1 ≤ daysInMonth y m := by
  unfold daysInMonth
  split
  · split <;> omega
  · split <;> omega

theorem daysBeforeMonth_succ (y m : Nat) (h : 1 ≤ m) :
    daysBeforeMonth y (m + 1) = daysBeforeMonth y m + daysInMonth y m := by
  obtain ⟨k, rfl⟩ : ∃ k, m = k + 1 := ⟨m - 1, by omega⟩
  rfl

theorem isLeapYear_iff (y : Nat) :
    isLeapYear y = true ↔ ((y % 4 = 0 ∧ y % 100 ≠ 0) ∨ y % 400 = 0) := by
  simp [isLeapYear]

theorem daysBeforeMonth_twelve (y : Nat) :
    daysBeforeMonth y 12 = 334 + (if isLeapYear y then 1 else 0) := by
  have e : daysBeforeMonth y 12 =
      0 + 31 + (if isLeapYear y then 29 else 28) + 31 + 30 + 31 + 30 + 31 + 31 + 30 + 31 + 30 :=
    rfl
  rw [e]
  by_cases h : isLeapYear y = true
  · rw [if_pos h, if_pos h]
  · rw [if_neg h, if_neg h]

theorem leapDays_succ (k : Nat) :
    leapDays (k + 1) = leapDays k + (if isLeapYear (k + 1) then 1 else 0) := by
  unfold leapDays
  by_cases h : isLeapYear (k + 1) = true
  · rw [if_pos h]
    rw [isLeapYear_iff] at h
    rcases h with ⟨h1, h2⟩ | h3 <;> omega
  · rw [if_neg h]
    rw [isLeapYear_iff] at h
    rw [not_or, not_and_or, not_not] at h
    obtain ⟨h1, h2⟩ := h
    rcases h1 with h1 | h1 <;> omega

theorem rataDie_pos (t : Datetime) (hv : ValidDate t) : 1 ≤ rataDie t := by
  obtain ⟨-, -, -, hd1, -⟩ := hv
  unfold rataDie
  omega

theorem predDate_valid_rataDie (t : Datetime) (hv : ValidDate t) (h2 : 2 ≤ rataDie t) :
    ValidDate (predDate t) ∧ rataDie (predDate t) + 1 = rataDie t := by
  obtain ⟨hy, hm1, hm2, hd1, hd2⟩ := hv
  by_cases hday : 1 < t.day
  · have hu : predDate t = { t with day := t.day - 1 } := by
      unfold predDate; rw [if_pos hday]
    rw [hu]
    constructor
    · exact ⟨hy, hm1, hm2, by show 1 ≤ t.day - 1; omega,
        by show t.day - 1 ≤ daysInMonth t.year t.month; omega⟩
    · show 365 * (t.year - 1) + leapDays (t.year - 1) + daysBeforeMonth t.year t.month
          + (t.day - 1) + 1
        = 365 * (t.year - 1) + leapDays (t.year - 1) + daysBeforeMonth t.year t.month + t.day
      omega
  · by_cases hmon : 1 < t.month
    · have hu : predDate t =
          { t with month := t.month - 1, day := daysInMonth t.year (t.month - 1) } := by
        unfold predDate; rw [if_neg hday, if_pos hmon]
      have hrec : daysBeforeMonth t.year t.month =
          daysBeforeMonth t.year (t.month - 1) + daysInMonth t.year (t.month - 1) := by
        have h := daysBeforeMonth_succ t.year (t.month - 1) (by omega)
        have e : t.month - 1 + 1 = t.month := by omega
        rw [e] at h
        exact h
      have hpos := daysInMonth_pos t.year (t.month - 1)
      rw [hu]
      constructor
      · exact ⟨hy, by show 1 ≤ t.month - 1; omega, by show t.month - 1 ≤ 12; omega,
          hpos, le_refl _⟩
      · show 365 * (t.year - 1) + leapDays (t.year - 1) + daysBeforeMonth t.year (t.month - 1)
            + daysInMonth t.year (t.month - 1) + 1
          = 365 * (t.year - 1) + leapDays (t.year - 1) + daysBeforeMonth t.year t.month + t.day
        omega
    · have hm : t.month = 1 := by omega
      have hd : t.day = 1 := by omega
      have hu : predDate t = { t with year := t.year - 1, month := 12, day := 31 } := by
        unfold predDate; rw [if_neg hday, if_neg hmon]
      have hy2 : 2 ≤ t.year := by
        by_contra hc
        have h1 : t.year = 1 := by omega
        unfold rataDie at h2
        rw [h1, hm, hd] at h2
        norm_num [leapDays, daysBeforeMonth] at h2
      have h31 : daysInMonth (t.year - 1) 12 = 31 := rfl
      rw [hu]
      constructor
      · exact ⟨by show 1 ≤ t.year - 1; omega, by show (1 : Nat) ≤ 12; omega,
          by show (12 : Nat) ≤ 12; omega, by show (1 : Nat) ≤ 31; omega,
          by show (31 : Nat) ≤ daysInMonth (t.year - 1) 12; rw [h31]⟩
      · show 365 * (t.year - 1 - 1) + leapDays (t.year - 1 - 1)
            + daysBeforeMonth (t.year - 1) 12 + 31 + 1
          = 365 * (t.year - 1) + leapDays (t.year - 1) + daysBeforeMonth t.year t.month + t.day
        rw [hm, hd]
        have h0 : daysBeforeMonth t.year 1 = 0 := rfl
        rw [h0, daysBeforeMonth_twelve]
        have hl := leapDays_succ (t.year - 2)
        have e : t.year - 2 + 1 = t.year - 1 := by omega
        rw [e] at hl
        have e2 : t.year - 1 - 1 = t.year - 2 := by omega
        rw [e2]
        by_cases hleap : isLeapYear (t.year - 1) = true
        · rw [if_pos hleap] at hl ⊢
          omega
        · rw [if_neg hleap] at hl ⊢
          omega

theorem subDays_valid_rataDie (k : Nat) (t : Datetime) (hv : ValidDate t)
    (hk : k + 1 ≤ rataDie t) :
    ValidDate (subDays k t) ∧ rataDie (subDays k t) + k = rataDie t := by
  induction k generalizing t with
  | zero => exact ⟨hv, rfl⟩
  | succ n ih =>
    have h2 : 2 ≤ rataDie t := by omega
    obtain ⟨hv2, hr⟩ := predDate_valid_rataDie t hv h2
    obtain ⟨hvn, hrn⟩ := ih (predDate t) hv2 (by omega)
    refine ⟨hvn, ?_⟩
    show rataDie (subDays n (predDate t)) + (n + 1) = rataDie t
    omega

theorem predDate_time (t : Datetime) :
    (predDate t).hour = t.hour ∧ (predDate t).minute = t.minute ∧
    (predDate t).second = t.second ∧ (predDate t).microsecond = t.microsecond := by
  by_cases h1 : 1 < t.day
  · simp [predDate, h1]
  · by_cases h2 : 1 < t.month <;> simp [predDate, h1, h2]

theorem subDays_time (k : Nat) (t : Datetime) :
    (subDays k t).hour = t.hour ∧ (subDays k t).minute = t.minute ∧
    (subDays k t).second = t.second ∧ (subDays k t).microsecond = t.microsecond := by
  induction k generalizing t with
  | zero => exact ⟨rfl, rfl, rfl, rfl⟩
  | succ n ih =>
    have hp := predDate_time t
    have hs := ih (predDate t)
    exact ⟨hs.1.trans hp.1, hs.2.1.trans hp.2.1, hs.2.2.1.trans hp.2.2.1,
      hs.2.2.2.trans hp.2.2.2⟩

/- ------------------------------------------------------------------ -/
/- Variable store lemmas                                              -/
/- ------------------------------------------------------------------ -/

theorem read_write_same (st : VarStore) (k : VarKey) (v : VarData) :
    read_data (write_data st k v) k false = some v := by
  unfold read_data write_data
  rw [List.find?_cons_of_pos _ (by simp)]
  rfl

theorem foldl_write_ne (keyf : String → VarKey) :
    ∀ (mapping : List (String × VarData)) (st : VarStore) (k : VarKey),
      (∀ q ∈ mapping, keyf q.1 ≠ k) →
      read_data (mapping.foldl (fun acc q => write_data acc (keyf q.1) q.2) st) k false
        = read_data st k false := by
  intro mapping
  induction mapping with
  | nil => intro st k _; rfl
  | cons q rest ih =>
    intro st k h
    rw [List.foldl_cons, ih _ k (fun r hr => h r (List.mem_cons_of_mem _ hr))]
    have hne : keyf q.1 ≠ k := h q (List.mem_cons_self q rest)
    unfold read_data write_data
    rw [List.find?_cons_of_neg _ (by simp [hne])]

theorem foldl_write_get (keyf : String → VarKey)
    (hinj : ∀ x y, keyf x = keyf y → x = y) :
    ∀ (mapping : List (String × VarData)) (st : VarStore),
      (mapping.map Prod.fst).Nodup →
      ∀ q ∈ mapping,
        read_data (mapping.foldl (fun acc r => write_data acc (keyf r.1) r.2) st)
          (keyf q.1) false = some q.2 := by
  intro mapping
  induction mapping with
  | nil => intro st _ q hq; cases hq
  | cons p rest ih =>
    intro st hnd q hq
    rw [List.foldl_cons]
    rcases List.mem_cons.mp hq with rfl | hq2
    · have hnotin : q.1 ∉ rest.map Prod.fst := by
        rw [List.map_cons, List.nodup_cons] at hnd
        exact hnd.1
      rw [foldl_write_ne keyf rest _ (keyf q.1) ?hne]
      · exact read_write_same st (keyf q.1) q.2
      case hne =>
        intro r hr heq
        exact hnotin (by
          rw [← hinj _ _ heq]
          exact List.mem_map_of_mem Prod.fst hr)
    · have hnd2 : (rest.map Prod.fst).Nodup := by
        rw [List.map_cons, List.nodup_cons] at hnd
        exact hnd.2
      exact ih (write_data st (keyf p.1) p.2) hnd2 q hq2

/- ------------------------------------------------------------------ -/
/- Claim theorems and witnesses                                       -/
/- ------------------------------------------------------------------ -/

/-- C1: for an active `@once` schedule whose start_time is not in the future,
`should_schedule` is true iff zero runs exist for the schedule; once any run
exists, every call returns false. -/
theorem once_should_schedule_iff_no_runs (s : PipelineSchedule) (now : Datetime)
    (hint : s.schedule_interval = "@once")
    (hact : s.status = ScheduleStatus.active)
    (hstart : start_in_future s now = false) :
    (should_schedule s now = true ↔ s.pipeline_runs = []) ∧
    (s.pipeline_runs ≠ [] → should_schedule s now = false) := by
  have hmain : should_schedule s now = decide (s.pipeline_runs.length = 0) := by
    unfold should_schedule
    rw [if_neg (by simp [hact]), if_neg (by simp [hstart]), if_pos hint]
  constructor
  · rw [hmain]
    simp [List.length_eq_zero]
  · intro hne
    rw [hmain]
    simpa [List.length_eq_zero] using hne

/-- Witness for C1 at concrete inputs: true with zero runs, false after one run. -/
theorem once_should_schedule_iff_no_runs_witness :
    should_schedule scheduleOnceEmpty nowW = true ∧
    should_schedule scheduleOnceDone nowW = false :=
  ⟨(once_should_schedule_iff_no_runs scheduleOnceEmpty nowW rfl rfl rfl).1.mpr rfl,
   (once_should_schedule_iff_no_runs scheduleOnceDone nowW rfl rfl rfl).2 (by decide)⟩

/-- C4: `all_blocks_completed` is true exactly when every owned BlockRun has
status `completed` (hence false as soon as any BlockRun has any other status). -/
theorem all_blocks_completed_iff (r : PipelineRun) :
    all_blocks_completed r = true ↔
      ∀ br ∈ r.block_runs, br.status = BlockRunStatus.completed := by
  unfold all_blocks_completed
  simp [List.all_eq_true]

/-- Witness for C4 at a concrete run whose two block runs are completed. -/
theorem all_blocks_completed_iff_witness :
    all_blocks_completed runAllDone = true :=
  (all_blocks_completed_iff runAllDone).mpr (by decide)

/-- C10: a run created without a `pipeline_uuid` owns zero BlockRuns, and
`all_blocks_completed` is vacuously true on it. -/
theorem create_without_pipeline_vacuously_completed
    (id sid : Nat) (ed : Option Datetime) (registry : List Pipeline) :
    PipelineRun.create id sid none ed registry =
      some ⟨id, sid, none, ed, PipelineRunStatus.initial, []⟩ ∧
    all_blocks_completed ⟨id, sid, none, ed, PipelineRunStatus.initial, []⟩ = true :=
  ⟨rfl, rfl⟩

/-- Witness for C10 at concrete inputs. -/
theorem create_without_pipeline_vacuously_completed_witness :
    PipelineRun.create 7 3 none none [] =
      some ⟨7, 3, none, none, PipelineRunStatus.initial, []⟩ ∧
    all_blocks_completed ⟨7, 3, none, none, PipelineRunStatus.initial, []⟩ = true :=
  create_without_pipeline_vacuously_completed 7 3 none []

/-- C5: when the execution capability's output count differs from the declared
output arity, `Block.execute` raises the arity-mismatch error and performs no
mutation: block (hence its status) and store are unchanged, nothing is
notified. -/
theorem execute_arity_mismatch_rejects (b : Block) (outputs : List VarData) (st : VarStore)
    (hlen : outputs.length ≠ (output_variables b.type).length) :
    Block.execute b outputs st =
      { error := some "The number of output variables does not match the block type",
        block := b, store := st, notified := false } := by
  unfold Block.execute
  rw [if_pos hlen]

/-- Witness for C5: a loader (declared arity 1) handed zero outputs. -/
theorem execute_arity_mismatch_rejects_witness :
    Block.execute blockA [] [] =
      { error := some "The number of output variables does not match the block type",
        block := blockA, store := [], notified := false } :=
  execute_arity_mismatch_rejects blockA [] [] (by decide)

/-- C7: writing a variable then reading the same
(pipeline_uuid, block_uuid, variable_uuid) key returns the written value,
for every value (hence every variable type). -/
theorem variable_put_get (repo_path : String) (st : VarStore)
    (pipeline_uuid block_uuid variable_uuid : String) (data : VarData) :
    get_variable repo_path
        (add_variable repo_path st pipeline_uuid block_uuid variable_uuid data)
        pipeline_uuid block_uuid variable_uuid false = some data :=
  read_write_same st _ data

/-- Witness for C7 at a concrete key and value. -/
theorem variable_put_get_witness :
    get_variable "repo" (add_variable "repo" [] "pl" "a" "df" (VarData.generic "d"))
      "pl" "a" "df" false = some (VarData.generic "d") :=
  variable_put_get "repo" [] "pl" "a" "df" (VarData.generic "d")

/-- C9: a never-executed block's `get_outputs` is empty, for any partition and
any sample count. -/
theorem get_outputs_empty_when_not_executed (b : Block) (st : VarStore)
    (ep : Option String) (sc : Option Nat)
    (h : b.status = BlockStatus.not_executed) :
    Block.get_outputs b st ep sc = [] := by
  unfold Block.get_outputs
  rw [if_pos h]

/-- Witness for C9 at a concrete block, partition and sample count. -/
theorem get_outputs_empty_when_not_executed_witness :
    Block.get_outputs blockA [] (some "1/20220615T103000") (some 10) = [] :=
  get_outputs_empty_when_not_executed blockA [] (some "1/20220615T103000") (some 10) rfl

/-- C6: when the capability returns exactly as many values as the declared
output arity, `Block.execute` raises no error, sets the status to `executed`,
notifies the owning pipeline, and persists each returned value in the variable
store under its declared variable name (readable back by `get_variable` under
the block's pipeline/block/variable key). -/
theorem execute_success_persists_outputs (b : Block) (outputs : List VarData)
    (st : VarStore) (p : PipelineRef)
    (hp : b.pipeline = some p)
    (hlen : outputs.length = (output_variables b.type).length)
    (hnd : (output_variables b.type).Nodup) :
    (Block.execute b outputs st).error = none ∧
    (Block.execute b outputs st).block.status = BlockStatus.executed ∧
    (Block.execute b outputs st).notified = true ∧
    ∀ q ∈ (output_variables b.type).zip outputs,
      get_variable p.repo_path (Block.execute b outputs st).store p.uuid b.uuid q.1 false
        = some q.2 := by
  have hexec : Block.execute b outputs st =
      { error := none, block := { b with status := BlockStatus.executed },
        store := store_variables b st ((output_variables b.type).zip outputs),
        notified := b.pipeline.isSome } := by
    unfold Block.execute
    rw [if_neg (by omega)]
  rw [hexec]
  refine ⟨rfl, rfl, by rw [hp]; rfl, ?_⟩
  intro q hq
  have hsv : store_variables b st ((output_variables b.type).zip outputs) =
      ((output_variables b.type).zip outputs).foldl
        (fun acc r =>
          write_data acc
            ⟨pipeline_path p.repo_path p.uuid, b.uuid, r.1, none⟩ r.2) st := by
    unfold store_variables
    rw [hp]
    rfl
  have hinj : ∀ x y : String,
      (⟨pipeline_path p.repo_path p.uuid, b.uuid, x, none⟩ : VarKey)
        = ⟨pipeline_path p.repo_path p.uuid, b.uuid, y, none⟩ → x = y := by
    intro x y h
    injection h with h1 h2 h3 h4
  have hndz : (((output_variables b.type).zip outputs).map Prod.fst).Nodup := by
    rw [List.map_fst_zip _ _ (by omega)]
    exact hnd
  have hget := foldl_write_get
    (fun v => (⟨pipeline_path p.repo_path p.uuid, b.uuid, v, none⟩ : VarKey)) hinj
    ((output_variables b.type).zip outputs) st hndz q hq
  show get_variable p.repo_path
      (store_variables b st ((output_variables b.type).zip outputs)) p.uuid b.uuid q.1 false
    = some q.2
  rw [hsv]
  exact hget

/-- Witness for C6: the loader block stores its single output under `df`. -/
theorem execute_success_persists_outputs_witness :
    (Block.execute blockA [VarData.generic "x"] []).error = none ∧
    (Block.execute blockA [VarData.generic "x"] []).block.status = BlockStatus.executed ∧
    (Block.execute blockA [VarData.generic "x"] []).notified = true ∧
    get_variable "repo" (Block.execute blockA [VarData.generic "x"] []).store
        "pl" "a" "df" false = some (VarData.generic "x") := by
  have h := execute_success_persists_outputs blockA [VarData.generic "x"] []
    ⟨"pl", "repo"⟩ rfl (by decide) (by decide)
  exact ⟨h.1, h.2.1, h.2.2.1, h.2.2.2 ("df", VarData.generic "x") (by decide)⟩

/-- C3: creating a run with a pipeline uuid snapshots the pipeline's
executable blocks into exactly one BlockRun per block (same uuids, in order),
all with status `initial`. -/
theorem create_snapshots_executable_blocks
    (id sid : Nat) (pu : String) (ed : Option Datetime)
    (registry : List Pipeline) (p : Pipeline)
    (hfind : registry.find? (fun q => q.uuid == pu) = some p) :
    PipelineRun.create id sid (some pu) ed registry =
      some ⟨id, sid, some pu, ed, PipelineRunStatus.initial,
        (get_executable_blocks p).map
          (fun b => ⟨id, b.uuid, BlockRunStatus.initial⟩)⟩ ∧
    ((get_executable_blocks p).map
        (fun b => (⟨id, b.uuid, BlockRunStatus.initial⟩ : BlockRun))).length
      = (get_executable_blocks p).length ∧
    ∀ br ∈ (get_executable_blocks p).map
        (fun b => (⟨id, b.uuid, BlockRunStatus.initial⟩ : BlockRun)),
      br.status = BlockRunStatus.initial := by
  refine ⟨?_, by simp, ?_⟩
  · simp only [PipelineRun.create]
    rw [hfind]
  · intro br hbr
    rw [List.mem_map] at hbr
    obtain ⟨b, -, rfl⟩ := hbr
    rfl

/-- Witness for C3: the 3-block linear pipeline A→B→C yields exactly 3
BlockRuns, all `initial`. -/
theorem create_snapshots_executable_blocks_witness :
    (PipelineRun.create 1 1 (some "pl") none [pipelineABC]).isSome = true ∧
    (PipelineRun.create 1 1 (some "pl") none [pipelineABC]).map
        (fun r => r.block_runs.length) = some 3 ∧
    (PipelineRun.create 1 1 (some "pl") none [pipelineABC]).map
        (fun r => r.block_runs.all (fun br => br.status == BlockRunStatus.initial))
      = some true := by
  have h := create_snapshots_executable_blocks 1 1 "pl" none [pipelineABC] pipelineABC
    (by decide)
  rw [h.1]
  exact ⟨rfl, by decide, by decide⟩

/-- C8: an edge whose addition would create a cycle is rejected with
`CycleError` and the block list (hence the edge set, on both endpoints) is
returned unchanged; and starting from an acyclic edge set, `add_edge` always
yields an acyclic edge set. -/
theorem add_edge_rejects_cycles (blocks : List Block) (a b : String) :
    (hasCycle (edgesOf (add_edge_updated blocks a b)) = true →
      add_edge blocks a b = (blocks, some "CycleError")) ∧
    (hasCycle (edgesOf blocks) = false →
      hasCycle (edgesOf (add_edge blocks a b).1) = false) := by
  constructor
  · intro h
    unfold add_edge
    rw [if_pos h]
  · intro h
    unfold add_edge
    by_cases hc : hasCycle (edgesOf (add_edge_updated blocks a b)) = true
    · rw [if_pos hc]
      exact h
    · rw [if_neg hc]
      simpa using hc

/-- Witness for C8: in the two-block pipeline x→y, adding y→x is rejected and
the result stays acyclic. -/
theorem add_edge_rejects_cycles_witness :
    add_edge twoBlocks "y" "x" = (twoBlocks, some "CycleError") ∧
    hasCycle (edgesOf (add_edge twoBlocks "y" "x").1) = false :=
  ⟨(add_edge_rejects_cycles twoBlocks "y" "x").1 (by decide),
   (add_edge_rejects_cycles twoBlocks "y" "x").2 (by decide)⟩

/-- C2: for an active recurring schedule (daily/hourly/weekly/monthly) whose
start_time is not in the future, `should_schedule` is true iff no existing run
of the schedule has `execution_date` equal to the canonical execution
timestamp, which is `now` truncated to the interval boundary: midnight of the
current day for `@daily`, top of the current hour for `@hourly`, midnight of
the 1st of the current month for `@monthly`, and for `@weekly` the most recent
week-start midnight (time fields zero, weekday Monday = 0, and exactly
`weekday(now) < 7` days before `now`'s date).  Any two `now` values on the
same calendar day give the same `@daily` canonical timestamp, so once a run
with that `execution_date` exists, `should_schedule` stays false for the
whole day. -/
theorem recurring_should_schedule_iff_canonical (s : PipelineSchedule) (now : Datetime)
    (hact : s.status = ScheduleStatus.active)
    (hstart : start_in_future s now = false)
    (hrec : s.schedule_interval = "@daily" ∨ s.schedule_interval = "@hourly" ∨
      s.schedule_interval = "@weekly" ∨ s.schedule_interval = "@monthly")
    (hvalid : ValidDate now) :
    ∃ canon, current_execution_date s.schedule_interval now = some canon ∧
      (should_schedule s now = true ↔
        ∀ r ∈ s.pipeline_runs, r.execution_date ≠ some canon) ∧
      (s.schedule_interval = "@daily" →
        canon = ⟨now.year, now.month, now.day, 0, 0, 0, 0⟩) ∧
      (s.schedule_interval = "@hourly" →
        canon = ⟨now.year, now.month, now.day, now.hour, 0, 0, 0⟩) ∧
      (s.schedule_interval = "@monthly" →
        canon = ⟨now.year, now.month, 1, 0, 0, 0, 0⟩) ∧
      (s.schedule_interval = "@weekly" →
        canon.hour = 0 ∧ canon.minute = 0 ∧ canon.second = 0 ∧ canon.microsecond = 0 ∧
        pyWeekday canon = 0 ∧ pyWeekday now < 7 ∧
        rataDie canon + pyWeekday now = rataDie now) ∧
      (∀ now2 : Datetime, s.schedule_interval = "@daily" →
        now2.year = now.year → now2.month = now.month → now2.day = now.day →
        current_execution_date s.schedule_interval now2 = some canon) := by
  have hiff : ∀ canon : Datetime,
      current_execution_date s.schedule_interval now = some canon →
      (should_schedule s now = true ↔
        ∀ r ∈ s.pipeline_runs, r.execution_date ≠ some canon) := by
    intro canon hc
    have hne : ¬ s.schedule_interval = "@once" := by
      rcases hrec with h | h | h | h <;> rw [h] <;> decide
    unfold should_schedule
    rw [if_neg (by simp [hact]), if_neg (by simp [hstart]), if_neg hne, hc]
    simp [List.any_eq_true]
  rcases hrec with hD | hH | hW | hM
  · refine ⟨truncDay now, ?_, ?_, ?_, ?_, ?_, ?_, ?_⟩
    · rw [hD]; simp [current_execution_date]
    · exact hiff _ (by rw [hD]; simp [current_execution_date])
    · intro _; rfl
    · intro hh; rw [hD] at hh; exact absurd hh (by decide)
    · intro hh; rw [hD] at hh; exact absurd hh (by decide)
    · intro hh; rw [hD] at hh; exact absurd hh (by decide)
    · intro now2 _ e1 e2 e3
      have heq : truncDay now2 = truncDay now := by
        unfold truncDay
        simp [Datetime.mk.injEq, e1, e2, e3]
      rw [hD]
      show some (truncDay now2) = some (truncDay now)
      rw [heq]
  · refine ⟨truncHour now, ?_, ?_, ?_, ?_, ?_, ?_, ?_⟩
    · rw [hH]; simp [current_execution_date]
    · exact hiff _ (by rw [hH]; simp [current_execution_date])
    · intro hh; rw [hH] at hh; exact absurd hh (by decide)
    · intro _; rfl
    · intro hh; rw [hH] at hh; exact absurd hh (by decide)
    · intro hh; rw [hH] at hh; exact absurd hh (by decide)
    · intro now2 hh; rw [hH] at hh; exact absurd hh (by decide)
  · refine ⟨subDays (pyWeekday now) (truncDay now), ?_, ?_, ?_, ?_, ?_, ?_, ?_⟩
    · rw [hW]; simp [current_execution_date]
    · exact hiff _ (by rw [hW]; simp [current_execution_date])
    · intro hh; rw [hW] at hh; exact absurd hh (by decide)
    · intro hh; rw [hW] at hh; exact absurd hh (by decide)
    · intro hh; rw [hW] at hh; exact absurd hh (by decide)
    · intro _
      have ht := subDays_time (pyWeekday now) (truncDay now)
      have hvT : ValidDate (truncDay now) := by
        obtain ⟨a1, a2, a3, a4, a5⟩ := hvalid
        exact ⟨a1, a2, a3, a4, a5⟩
      have hr1 : 1 ≤ rataDie now := rataDie_pos now hvalid
      have hrT : rataDie (truncDay now) = rataDie now := rfl
      have hwEq : pyWeekday now = (rataDie now + 6) % 7 := rfl
      have hwd : pyWeekday now + 1 ≤ rataDie (truncDay now) := by omega
      obtain ⟨hvC, hrC⟩ := subDays_valid_rataDie (pyWeekday now) (truncDay now) hvT hwd
      have hrC2 : rataDie (subDays (pyWeekday now) (truncDay now)) + pyWeekday now
          = rataDie now := by omega
      have hw0 : pyWeekday (subDays (pyWeekday now) (truncDay now)) = 0 := by
        show (rataDie (subDays (pyWeekday now) (truncDay now)) + 6) % 7 = 0
        omega
      exact ⟨ht.1, ht.2.1, ht.2.2.1, ht.2.2.2, hw0, by omega, hrC2⟩
    · intro now2 hh; rw [hW] at hh; exact absurd hh (by decide)
  · refine ⟨{ truncDay now with day := 1 }, ?_, ?_, ?_, ?_, ?_, ?_, ?_⟩
    · rw [hM]; simp [current_execution_date]
    · exact hiff _ (by rw [hM]; simp [current_execution_date])
    · intro hh; rw [hM] at hh; exact absurd hh (by decide)
    · intro hh; rw [hM] at hh; exact absurd hh (by decide)
    · intro _; rfl
    · intro hh; rw [hM] at hh; exact absurd hh (by decide)
    · intro now2 hh; rw [hM] at hh; exact absurd hh (by decide)

/-- Witness for C2: the fresh `@daily` schedule fires at the concrete time. -/
theorem recurring_should_schedule_iff_canonical_witness :
    should_schedule scheduleDaily nowW = true := by
  obtain ⟨canon, hc, hiff, -, -, -, -, -⟩ :=
    recurring_should_schedule_iff_canonical scheduleDaily nowW rfl rfl
      (Or.inl rfl) (by decide)
  refine hiff.mpr ?_
  intro r hr
  simp [scheduleDaily] at hr

end Mage
